import Mathlib

/-!
# Verification of the tiz-dl video downloader

A shallow embedding of the decision logic of `tiz-dl.py` and `yt.py`
(video-source resolution pipeline, download dispatcher, cookie locator,
quality normalizer), together with proofs settling the specification
claims about them.

External effects (HTTP fetches, the filesystem, subprocess exit codes,
the JSON library) are passed in as explicit inputs or oracle functions;
the string manipulation, HTML queries and control flow are translated
directly from the Python source.
-/

set_option autoImplicit false

namespace TizDl

/-! ## Character and string primitives

Python string operations (`in`, `split`, `lower`, `strip`, `startswith`,
`endswith`, `%`-decoding) modelled over `List Char`.  ASCII semantics:
`lower`/`strip`/digit classes are modelled for the ASCII range, which is
the range the program's constant strings and URL inputs live in.
-/

/-- ASCII lower-casing of one character, modelling Python `str.lower` on ASCII. -/
def lowerChar (c : Char) : Char :=
  if 'A' ≤ c ∧ c ≤ 'Z' then Char.ofNat (c.toNat + 32) else c

/-- Lower-case a string (ASCII), modelling Python `str.lower`. -/
def strLower (s : String) : String :=
  ⟨s.data.map lowerChar⟩

/-- `listStarts l p` is true iff `p` is a prefix of `l` (Python `startswith`). -/
def listStarts : List Char → List Char → Bool
  | _, [] => true
  | [], _ :: _ => false
  | a :: l, b :: p => a == b && listStarts l p

/-- `listHas l p` is true iff `p` occurs as a contiguous segment of `l`
(Python `p in l`). -/
def listHas : List Char → List Char → Bool
  | [], p => p.isEmpty
  | c :: l, p => listStarts (c :: l) p || listHas l p

/-- Python `pat in s` (substring test). -/
def strContains (s pat : String) : Bool :=
  listHas s.data pat.data

/-- Python `s.startswith pat`. -/
def strStarts (s pat : String) : Bool :=
  listStarts s.data pat.data

/-- Python `s.endswith pat`. -/
def strEnds (s pat : String) : Bool :=
  listStarts s.data.reverse pat.data.reverse

/-- Split `l` at the first occurrence of the (nonempty) pattern `sep`:
returns the part before and the part after that occurrence, or `none`
when `sep` does not occur. -/
def findSplit (sep : List Char) : List Char → Option (List Char × List Char)
  | [] => if listStarts [] sep then some ([], []) else none
  | c :: l =>
    if listStarts (c :: l) sep then some ([], (c :: l).drop sep.length)
    else
      match findSplit sep l with
      | some (p, q) => some (c :: p, q)
      | none => none

/-- Fuelled worker for `pySplit`. -/
def pySplitAux (sep : List Char) : Nat → List Char → List (List Char)
  | 0, l => [l]
  | fuel + 1, l =>
    match findSplit sep l with
    | none => [l]
    | some (p, q) => p :: pySplitAux sep fuel q

/-- Python `s.split(sep)` for a nonempty separator: split at every
non-overlapping leftmost occurrence. -/
def pySplit (sep s : String) : List String :=
  (pySplitAux sep.data (s.data.length + 1) s.data).map (fun l => ⟨l⟩)

/-- Python `s.split(sep)[0]`. -/
def splitHead (sep s : String) : String :=
  match findSplit sep.data s.data with
  | some (p, _) => ⟨p⟩
  | none => s

/-- Python `s.split(sep)[1]` in contexts where `sep` is known to occur:
the segment between the first occurrence and the next one (or the end). -/
def splitSecond (sep s : String) : String :=
  match findSplit sep.data s.data with
  | none => ""
  | some (_, q) =>
    match findSplit sep.data q with
    | some (p, _) => ⟨p⟩
    | none => ⟨q⟩

/-- Hexadecimal value of a character, if any. -/
def hexVal (c : Char) : Option Nat :=
  if '0' ≤ c ∧ c ≤ '9' then some (c.toNat - '0'.toNat)
  else if 'a' ≤ c ∧ c ≤ 'f' then some (c.toNat - 'a'.toNat + 10)
  else if 'A' ≤ c ∧ c ≤ 'F' then some (c.toNat - 'A'.toNat + 10)
  else none

/-- Fuelled worker for `percentDecodeList` (the fuel only serves structural
recursion; `percentDecodeList` supplies enough for the whole input). -/
def percentDecodeAux : Nat → List Char → List Char
  | _, [] => []
  | 0, l => l
  | fuel + 1, '%' :: a :: b :: rest =>
    match hexVal a, hexVal b with
    | some x, some y => Char.ofNat (16 * x + y) :: percentDecodeAux fuel rest
    | _, _ => '%' :: percentDecodeAux fuel (a :: b :: rest)
  | fuel + 1, c :: rest => c :: percentDecodeAux fuel rest

/-- Percent-decoding of a character list, modelling `urllib.parse.unquote`:
a `%` followed by two hex digits decodes to that byte; malformed escapes
are left untouched.  (Multi-byte UTF-8 sequences are decoded bytewise,
which agrees with Python on the ASCII range this program operates in.) -/
def percentDecodeList (l : List Char) : List Char :=
  percentDecodeAux l.length l

/-- `urllib.parse.unquote`. -/
def pyUnquote (s : String) : String :=
  ⟨percentDecodeList s.data⟩

/-- `urllib.parse.unquote_plus` (used by `parse_qs` on names and values):
`+` becomes a space, then percent-decoding. -/
def unquotePlus (l : List Char) : List Char :=
  percentDecodeList (l.map (fun c => if c == '+' then ' ' else c))

/-! ## URL dissection

Models of the pieces of `urllib.parse` the program uses: the `query`
component of `urlparse`/`urlsplit`, the `path` component, `parse_qs`,
`urljoin`, and `os.path` helpers.
-/

/-- The `query` component of `urlparse(url)`: the fragment is split off at
the first `#`, and the query is everything after the first `?` of what
remains. -/
def urlQuery (url : String) : String :=
  let beforeFrag :=
    match findSplit ['#'] url.data with
    | some (p, _) => p
    | none => url.data
  match findSplit ['?'] beforeFrag with
  | some (_, q) => ⟨q⟩
  | none => ""

/-- The `path` component of `urlsplit(url)`: after the `scheme://authority`
part (when a scheme is present), up to the first `?` or `#`. -/
def urlPath (url : String) : String :=
  let rest :=
    match findSplit "://".data url.data with
    | some (_, q) => q.dropWhile (fun c => !(c == '/'))
    | none => url.data
  ⟨rest.takeWhile (fun c => !(c == '?') && !(c == '#'))⟩

/-- `urllib.parse.parse_qsl(query)` with default options: components are
split on `&`, a component without `=` or with an empty value is skipped,
and names and values are `unquote_plus`-decoded. -/
def parse_qsl (query : String) : List (String × String) :=
  (pySplit "&" query).filterMap (fun comp =>
    match findSplit ['='] comp.data with
    | none => none
    | some (n, v) =>
      if v.isEmpty then none
      else some (⟨unquotePlus n⟩, ⟨unquotePlus v⟩))

/-- `parse_qs(query)['v'][0]` guarded by `'v' in parse_qs(query)`: the first
value bound to the name `v`, if any. -/
def getV (query : String) : Option String :=
  ((parse_qsl query).find? (fun p => p.1 == "v")).map (fun p => p.2)

/-- Models `urllib.parse.urljoin` for the URL shapes this program feeds it:
an absolute `rel` is returned unchanged; protocol-relative, root-relative
and path-relative forms resolve against `base`'s scheme, origin and
directory respectively (dot-segments are not normalized; the program never
produces them). -/
def pyUrljoin (base rel : String) : String :=
  if strContains rel "://" then rel
  else
    let scheme : List Char :=
      match findSplit "://".data base.data with
      | some (p, _) => p
      | none => []
    let afterScheme : List Char :=
      match findSplit "://".data base.data with
      | some (_, q) => q
      | none => base.data
    let authority : List Char := afterScheme.takeWhile (fun c => !(c == '/'))
    if listStarts rel.data "//".data then ⟨scheme⟩ ++ ":" ++ rel
    else if listStarts rel.data ['/'] then ⟨scheme⟩ ++ "://" ++ ⟨authority⟩ ++ rel
    else
      let core : List Char :=
        base.data.takeWhile (fun c => !(c == '?') && !(c == '#'))
      let dir : List Char := core.reverse.dropWhile (fun c => !(c == '/')) |>.reverse
      if dir.isEmpty then ⟨scheme⟩ ++ "://" ++ ⟨authority⟩ ++ "/" ++ rel
      else ⟨dir⟩ ++ rel

/-- `os.path.join(d, f)` on POSIX for the shapes used here. -/
def os_path_join (d f : String) : String :=
  if listStarts f.data ['/'] then f
  else if d == "" then f
  else if d.data.getLast? == some '/' then d ++ f
  else d ++ "/" ++ f

/-- `os.path.basename(p)`: the part after the last `/`. -/
def os_path_basename (p : String) : String :=
  ⟨(p.data.reverse.takeWhile (fun c => !(c == '/'))).reverse⟩

/-! ## HTML document model

The parsed page handed around by BeautifulSoup is modelled as a tree of
elements (tag, attributes, children).  `find`/`find_all` are document-order
(pre-order) searches over all descendants; `class_=` matching tests
membership in the whitespace-split `class` attribute, as BeautifulSoup
does. -/

/-- An HTML element.  Text nodes carry no information the program reads,
so only elements are represented. -/
inductive Node where
  | elem (tag : String) (attrs : List (String × String)) (children : List Node)

/-- The tag of a node. -/
def nodeTag : Node → String
  | .elem t _ _ => t

/-- The attribute list of a node. -/
def nodeAttrs : Node → List (String × String)
  | .elem _ a _ => a

/-- The children of a node. -/
def nodeChildren : Node → List Node
  | .elem _ _ c => c

/-- Attribute lookup (`tag['name']` / `'name' in tag.attrs`). -/
def attrOf (n : Node) (k : String) : Option String :=
  ((nodeAttrs n).find? (fun p => p.1 == k)).map (fun p => p.2)

/-- The whitespace-split tokens of the `class` attribute. -/
def classTokens (n : Node) : List String :=
  pySplit " " ((attrOf n "class").getD "")

mutual

/-- All elements of a subtree in document (pre-)order, the root included. -/
def nodeDescend : Node → List Node
  | .elem t a c => .elem t a c :: forestDescend c

/-- All elements of a forest in document order. -/
def forestDescend : List Node → List Node
  | [] => []
  | n :: rest => nodeDescend n ++ forestDescend rest

end

/-- `soup.find_all(pred)` over a whole document. -/
def findAllD (doc : List Node) (p : Node → Bool) : List Node :=
  (forestDescend doc).filter p

/-- `soup.find(pred)` over a whole document. -/
def findFirstD (doc : List Node) (p : Node → Bool) : Option Node :=
  (findAllD doc p).head?

/-- `element.find(pred)`: first matching proper descendant. -/
def findInside (n : Node) (p : Node → Bool) : Option Node :=
  findFirstD (nodeChildren n) p

/-! ## Models of the regular-expression scans

The program scans raw page text with a handful of fixed regular
expressions.  Each one is modelled by a dedicated leftmost-match search
with the greedy/backtracking semantics of the Python `re` engine on that
pattern.  A "run" below is the maximal stretch of characters allowed by
the pattern's negated character class. -/

/-- Characters excluded by the negated class of quotes. -/
def isQuote (c : Char) : Bool :=
  c == Char.ofNat 34 || c == Char.ofNat 39

/-- All start positions of occurrences of `pat` in `l`, ascending,
offset by `i`. -/
def allStartPosAux (pat : List Char) : List Char → Nat → List Nat
  | [], i => if listStarts [] pat then [i] else []
  | c :: rest, i =>
    (if listStarts (c :: rest) pat then [i] else []) ++ allStartPosAux pat rest (i + 1)

/-- The last start position of `pat` in `l`, if any. -/
def lastStartPos (pat l : List Char) : Option Nat :=
  (allStartPosAux pat l 0).getLast?

/-- Match the scheme alternation at the head of `l` (the `s` is preferred,
as the greedy optional does): returns the matched scheme text and the
remainder. -/
def matchScheme (l : List Char) : Option (List Char × List Char) :=
  if listStarts l "https://".data then some ("https://".data, l.drop 8)
  else if listStarts l "http://".data then some ("http://".data, l.drop 7)
  else none

/-- At-position matcher for the generic media-URL patterns (scheme, then a
nonempty quote-free stretch, then `ext`, then any quote-free tail): after
the scheme, the greedy run of non-quote characters is the candidate; the
pattern matches iff `ext` occurs in the run at index ≥ 1, and the whole
run is captured (the trailing star consumes the rest of it). -/
def genericPatAt (ext : List Char) (l : List Char) : Option (List Char) :=
  match matchScheme l with
  | none => none
  | some (sch, rest) =>
    let run := rest.takeWhile (fun c => !isQuote c)
    if listHas (run.drop 1) ext && !ext.isEmpty then some (sch ++ run) else none

/-- At-position matcher for the first tiz pattern (scheme, the literal
partner-CDN host, a nonempty quote-free stretch, `.mp4`): the capture
extends to the last `.mp4` of the run that has at least one character
before it. -/
def tizPat1At (l : List Char) : Option (List Char) :=
  match matchScheme l with
  | none => none
  | some (sch, r1) =>
    let lit := "video.tiz-cycling.io/".data
    if listStarts r1 lit then
      let rest := r1.drop lit.length
      let run := rest.takeWhile (fun c => !isQuote c)
      match lastStartPos ".mp4".data run with
      | some k => if 1 ≤ k then some (sch ++ lit ++ run.take (k + 4)) else none
      | none => none
    else none

/-- At-position matcher for the second tiz pattern (scheme, quote-free
stretch, the literal `/Tiz-Cycling/` directory, quote-free stretch,
`.mp4`): greedy backtracking picks the last directory occurrence of the
run that still leaves a valid tail, and within that tail the last `.mp4`. -/
def tizPat2At (l : List Char) : Option (List Char) :=
  match matchScheme l with
  | none => none
  | some (sch, rest) =>
    let run := rest.takeWhile (fun c => !isQuote c)
    let tc := "/Tiz-Cycling/".data
    let candidates := ((allStartPosAux tc run 0).filter (fun k => 1 ≤ k)).reverse
    let pick := candidates.findSome? (fun k =>
      let tail := run.drop (k + tc.length)
      match lastStartPos ".mp4".data tail with
      | some j => if 1 ≤ j then some (run.take (k + tc.length + j + 4)) else none
      | none => none)
    pick.map (fun cap => sch ++ cap)

/-- At-position matcher for the third tiz pattern (`v=`, then a captured
scheme plus ampersand-and-quote-free stretch ending in `.mp4`): the
capture group excludes the leading `v=` and extends to the last `.mp4`
of the run with at least one character before it. -/
def tizPat3At (l : List Char) : Option (List Char) :=
  if listStarts l "v=".data then
    match matchScheme (l.drop 2) with
    | none => none
    | some (sch, rest) =>
      let run := rest.takeWhile (fun c => !(isQuote c || c == '&'))
      match lastStartPos ".mp4".data run with
      | some k => if 1 ≤ k then some (sch ++ run.take (k + 4)) else none
      | none => none
  else none

/-- Leftmost-match scan: try the at-position matcher at every position,
left to right, giving the first element of `re.findall` for these
patterns. -/
def scanFor (f : List Char → Option (List Char)) : List Char → Option (List Char)
  | [] => f []
  | c :: rest =>
    match f (c :: rest) with
    | some r => some r
    | none => scanFor f rest

/-- First match of the generic media-URL pattern for suffix `ext` in `text`. -/
def genericPatFind (ext : String) (text : String) : Option String :=
  (scanFor (genericPatAt ext.data) text.data).map (fun l => ⟨l⟩)

/-- First match of the first of the three `mp4_patterns` of
`extract_tiz_url` that matches `text` (tried in their listed order). -/
def mp4PatternsFirst (text : String) : Option String :=
  match scanFor tizPat1At text.data with
  | some m => some ⟨m⟩
  | none =>
  match scanFor tizPat2At text.data with
  | some m => some ⟨m⟩
  | none => (scanFor tizPat3At text.data).map (fun l => ⟨l⟩)

/-! ## tiz-dl.py: URL classification and normalization -/

/-- `is_youtube_url` from `tiz-dl.py`. -/
def is_youtube_url (url : String) : Bool :=
  strContains url "youtube.com" || strContains url "youtu.be"

/-- The `video_extensions` list of `extract_video_url` / `extract_tiz_url`. -/
def video_extensions : List String :=
  [".mp4", ".mkv", ".mov", ".avi", ".wmv", ".flv", ".webm"]

/-- `normalize_youtube_url` from `tiz-dl.py`: embed URLs and short URLs are
rewritten from the id between the marker and the next `?`; otherwise a `v`
query parameter is rewritten to the canonical watch URL; otherwise the URL
is returned unchanged. -/
def normalize_youtube_url (url : String) : String :=
  if strContains url "/embed/" then
    "https://www.youtube.com/watch?v=" ++ splitHead "?" (splitSecond "/embed/" url)
  else if strContains url "youtu.be/" then
    "https://www.youtube.com/watch?v=" ++ splitHead "?" (splitSecond "youtu.be/" url)
  else
    match getV (urlQuery url) with
    | some v => "https://www.youtube.com/watch?v=" ++ v
    | none => url

/-! ## tiz-dl.py: the tiz-cycling extractor -/

/-- The iframe loop of `extract_tiz_url`: for each frame that has a `src`
mentioning the proxy endpoint, resolve the frame URL against the page URL,
return the decoded `v` parameter if present, otherwise fetch the frame
(`fetchText`, `none` modelling a raised exception, which the code catches
and skips) and scan it with the three site patterns; a frame that yields
nothing falls through to the next. -/
def tizIframeLoop (fetchText : String → Option String) (url : String) :
    List Node → Option String
  | [] => none
  | n :: rest =>
    match attrOf n "src" with
    | none => tizIframeLoop fetchText url rest
    | some src =>
      if strContains src "video.php" then
        let vpu := pyUrljoin url src
        match getV (urlQuery vpu) with
        | some v => some (pyUnquote v)
        | none =>
          match fetchText vpu with
          | some t2 =>
            match mp4PatternsFirst t2 with
            | some m => some (pyUnquote m)
            | none => tizIframeLoop fetchText url rest
          | none => tizIframeLoop fetchText url rest
      else tizIframeLoop fetchText url rest

/-- The anchor loop of `extract_tiz_url`: anchors whose `href` mentions the
proxy endpoint with a `v` parameter yield the decoded parameter. -/
def tizLinkLoop (url : String) : List Node → Option String
  | [] => none
  | n :: rest =>
    let href := (attrOf n "href").getD ""
    match getV (urlQuery (pyUrljoin url href)) with
    | some v => some (pyUnquote v)
    | none => tizLinkLoop url rest

/-- The final extension loop of `extract_tiz_url`: the first media suffix
whose generic pattern matches the raw text yields the decoded match. -/
def tizExtLoop (text : String) : List String → Option String
  | [] => none
  | e :: rest =>
    match genericPatFind e text with
    | some m => some (pyUnquote m)
    | none => tizExtLoop text rest

/-- `extract_tiz_url` from `tiz-dl.py`, over the fetched page's raw `text`
and parsed document `doc`.  In order: the three site regex scans, the
first YouTube-mentioning frame's raw `src`, the proxy-frame loop, the
proxy-anchor loop, and the per-extension regex loop. -/
def extract_tiz_url (fetchText : String → Option String) (url text : String)
    (doc : List Node) : Option String :=
  match mp4PatternsFirst text with
  | some m => some (pyUnquote m)
  | none =>
  match findFirstD doc (fun n =>
      nodeTag n == "iframe" &&
        (match attrOf n "src" with
         | some s => strContains s "youtube.com" || strContains s "youtu.be"
         | none => false)) with
  | some n => some ((attrOf n "src").getD "")
  | none =>
  match tizIframeLoop fetchText url (findAllD doc (fun n => nodeTag n == "iframe")) with
  | some r => some r
  | none =>
  match tizLinkLoop url (findAllD doc (fun n =>
      nodeTag n == "a" &&
        (match attrOf n "href" with
         | some h => strContains h "video.php?v="
         | none => false))) with
  | some r => some r
  | none => tizExtLoop text video_extensions

/-! ## tiz-dl.py: the generic resolution pipeline -/

/-- The result of one HTTP GET as the program observes it: body text, its
parse, the final URL after redirects, and whether any redirect happened
(`response.history` nonempty). -/
structure HttpResp where
  text : String
  doc : List Node
  url : String
  redirected : Bool

/-- A minimal JSON value, for the embedded-player payload attribute. -/
inductive JVal where
  | jnull
  | jbool (b : Bool)
  | jnum (n : Int)
  | jstr (s : String)
  | jarr (l : List JVal)
  | jobj (l : List (String × JVal))

/-- Python truthiness of a JSON value. -/
def jTruthy : JVal → Bool
  | .jnull => false
  | .jbool b => b
  | .jnum n => !(n == 0)
  | .jstr s => !(s == "")
  | .jarr l => !l.isEmpty
  | .jobj l => !l.isEmpty

/-- Dictionary lookup with JSON duplicate-key (last wins) semantics. -/
def jLookup (kvs : List (String × JVal)) (k : String) : Option JVal :=
  (kvs.reverse.find? (fun p => p.1 == k)).map (fun p => p.2)

/-- Outcome of the embedded-player JSON branch. -/
inductive FlowStep where
  | ret (s : String)
  | fallthrough
  | raise

/-- The player-payload branch: a parse failure is caught and falls through;
a parsed payload is probed with the membership test, truthiness test, and
`[0]['src']` chain exactly as Python evaluates them, with type and key
errors propagating to the extractor's catch-all handler (`raise`).  A
non-string final source value cannot inhabit the extractor's string result
and is likewise modelled as `raise`; no claim exercises that corner. -/
def flowEval (j : Option JVal) : FlowStep :=
  match j with
  | none => .fallthrough
  | some d =>
    match d with
    | .jobj kvs =>
      match jLookup kvs "sources" with
      | none => .fallthrough
      | some v =>
        if !jTruthy v then .fallthrough
        else
          match v with
          | .jarr (h :: _) =>
            match h with
            | .jobj kvs2 =>
              match jLookup kvs2 "src" with
              | some (.jstr s) => .ret s
              | some _ => .raise
              | none => .raise
            | _ => .raise
          | _ => .raise
    | .jarr l =>
      if l.any (fun x => match x with | .jstr s => s == "sources" | _ => false)
      then .raise else .fallthrough
    | .jstr s => if strContains s "sources" then .raise else .fallthrough
    | _ => .raise

/-- The trailing strategies of `extract_video_url`: YouTube watch anchors,
then the generic regex scans over the raw body. -/
def genericLinksAndPatterns (resp : HttpResp) : Option String :=
  match findAllD resp.doc (fun n =>
      nodeTag n == "a" &&
        (match attrOf n "href" with
         | some h => strContains h "youtube.com/watch" || strContains h "youtu.be/"
         | none => false)) with
  | lnk :: _ => some ((attrOf lnk "href").getD "")
  | [] =>
  match genericPatFind ".mp4" resp.text with
  | some m => some (pyUnquote m)
  | none =>
  match genericPatFind ".mov" resp.text with
  | some m => some (pyUnquote m)
  | none => (genericPatFind ".webm" resp.text).map pyUnquote

/-- After a video element without a usable nested source element: the
element's own `src` attribute, then the trailing strategies. -/
def genericVideoTagTail (resp : HttpResp) (vt : Node) : Option String :=
  match attrOf vt "src" with
  | some s => some s
  | none => genericLinksAndPatterns resp

/-- The strategies `extract_video_url` runs once the wrapper-frame branch
has fallen through: the first YouTube-mentioning frame, the player JSON
payload, the native video element, and the trailing strategies. -/
def genericAfterWrapper (jsonParse : String → Option JVal) (resp : HttpResp) :
    Option String :=
  match findFirstD resp.doc (fun n =>
      nodeTag n == "iframe" &&
        (match attrOf n "src" with
         | some s => strContains s "youtube.com"
         | none => false)) with
  | some yt => some ((attrOf yt "src").getD "")
  | none =>
  match
    (match findFirstD resp.doc (fun n =>
        nodeTag n == "div" && (classTokens n).contains "flowplayer") with
     | some fp =>
       (match attrOf fp "data-item" with
        | some item => flowEval (jsonParse item)
        | none => .fallthrough)
     | none => .fallthrough) with
  | .ret s => some s
  | .raise => none
  | .fallthrough =>
  match findFirstD resp.doc (fun n => nodeTag n == "video") with
  | some vt =>
    (match findInside vt (fun n => nodeTag n == "source") with
     | some st =>
       (match attrOf st "src" with
        | some s => some s
        | none => genericVideoTagTail resp vt)
     | none => genericVideoTagTail resp vt)
  | none => genericLinksAndPatterns resp

/-- The strategies `extract_video_url` runs after the site-specific branch:
the marker-class wrapper frame (with the `v`-parameter proxy handling),
then the rest of the cascade. -/
def genericStrategies (jsonParse : String → Option JVal) (resp : HttpResp) :
    Option String :=
  let wrapperIframe :=
    match findFirstD resp.doc (fun n => (classTokens n).contains "video-wrapper") with
    | some vw => findInside vw (fun n => nodeTag n == "iframe")
    | none => none
  match wrapperIframe with
  | some ifr =>
    (match attrOf ifr "src" with
     | some src =>
       (match getV (urlQuery src) with
        | some v0 =>
          let v := pyUnquote v0
          if strStarts v "http" then some v
          else some ("https://www.youtube.com/watch?v=" ++ v)
        | none => some src)
     | none => genericAfterWrapper jsonParse resp)
  | none => genericAfterWrapper jsonParse resp

/-- `extract_video_url` from `tiz-dl.py`.  `fetch` models `requests.get`
(`none` = a raised request exception, caught by the function's catch-all
handler), `fetchText` the nested frame fetch inside the tiz extractor, and
`jsonParse` the JSON library.  YouTube URLs and URLs mentioning a media
suffix short-circuit before any fetch; a followed redirect whose final URL
is a YouTube URL short-circuits before any page strategy; pages on the
partner domain run the site extractor (and the page's own `v` parameter)
first; all other pages run the generic strategy cascade. -/
def extract_video_url (fetch : String → Option HttpResp)
    (fetchText : String → Option String) (jsonParse : String → Option JVal)
    (url : String) (follow_redirects : Bool) : Option String :=
  if is_youtube_url url then some url
  else if video_extensions.any (fun e => strContains (strLower url) e) then some url
  else
    match fetch url with
    | none => none
    | some resp =>
      if follow_redirects && resp.redirected && !(resp.url == url)
          && is_youtube_url resp.url then
        some resp.url
      else
        match
          (if strContains url "tiz-cycling.tv" then
            match extract_tiz_url fetchText url resp.text resp.doc with
            | some t => some t
            | none =>
              if strContains url "video.php" then (getV (urlQuery url)).map pyUnquote
              else none
          else none) with
        | some r => some r
        | none => genericStrategies jsonParse resp

/-! ## tiz-dl.py: cookie location and the delegated (yt-dlp) download -/

/-- The candidate cookie locations of `download_youtube_video`, in source
order, after the falsy filter: the caller-provided path (if any), a
`cookies.txt` beside the script, one in the working directory, and the
fixed user-configuration path. -/
def cookie_locations (override : Option String) (scriptDir cwd home : String) :
    List String :=
  (((match override with
     | some p => [p]
     | none => []) ++
    [os_path_join scriptDir "cookies.txt",
     os_path_join cwd "cookies.txt",
     home ++ "/.config/yt-dlp/cookies.txt"]).filter (fun s => !(s == "")))

/-- The cookie-store search of `download_youtube_video`: the first candidate
location that exists (`pathExists` models `os.path.exists`), or `none`. -/
def find_cookies_path (pathExists : String → Bool) (override : Option String)
    (scriptDir cwd home : String) : Option String :=
  (cookie_locations override scriptDir cwd home).find? pathExists

/-- The bot-verification signature the dispatcher greps stderr for. -/
def botPhrase : String := "Sign in to confirm you're not a bot"

/-- The fixed browser-identity order of the cookie fallback. -/
def browsers : List String := ["chrome", "firefox", "edge", "safari", "brave", "opera"]

/-- One retrieval attempt made by `download_youtube_video`: the primary
yt-dlp invocation with an optional `--cookies` file, or a fallback
invocation reading cookies live from a browser.  Each carries the video
URL passed to the tool. -/
inductive YtAttempt where
  | fileCookies (cookies : Option String) (url : String)
  | browserCookies (browser : String) (url : String)
  deriving DecidableEq

/-- The URL an attempt passes to the tool. -/
def ytAttemptUrl : YtAttempt → String
  | .fileCookies _ u => u
  | .browserCookies _ u => u

/-- The browser-cookie fallback loop: `res b` is the exit code of the
retry with browser `b` (`none` models a raised exception, which the code
catches and skips).  Returns success and the ordered list of browsers
tried; the loop stops at the first exit code 0. -/
def browserFallback (res : String → Option Nat) : List String → Bool × List String
  | [] => (false, [])
  | b :: rest =>
    if res b == some 0 then (true, [b])
    else ((browserFallback res rest).1, b :: (browserFallback res rest).2)

/-- The decision flow of `download_youtube_video` (tiz-dl.py) after the
cookie store has been located: the video URL is normalized once, the
primary yt-dlp invocation runs (exit code `primaryExit`, standard error
`stderr`), and on a non-zero exit the browser-cookie fallback cycle runs
exactly when a cookie file was in use and the bot-verification phrase
occurs in stderr.  Returns overall success and the ordered attempts. -/
def download_youtube_dispatch (videoUrl : String) (cookiesPath : Option String)
    (primaryExit : Nat) (stderr : String) (res : String → Option Nat) :
    Bool × List YtAttempt :=
  let u := normalize_youtube_url videoUrl
  if primaryExit == 0 then (true, [.fileCookies cookiesPath u])
  else if cookiesPath.isSome && strContains stderr botPhrase then
    ((browserFallback res browsers).1,
     .fileCookies cookiesPath u ::
       (browserFallback res browsers).2.map (fun b => .browserCookies b u))
  else (false, [.fileCookies cookiesPath u])

/-! ## tiz-dl.py: the direct (streaming) download -/

/-- A flat model of the destination filesystem: path ↦ byte contents. -/
abbrev FileSys := List (String × List Nat)

/-- Contents of a path, if the file exists. -/
def fsGet (fs : FileSys) (p : String) : Option (List Nat) :=
  (fs.find? (fun q => q.1 == p)).map (fun q => q.2)

/-- Overwrite or create a file. -/
def fsSet (fs : FileSys) (p : String) (c : List Nat) : FileSys :=
  if fs.any (fun q => q.1 == p) then
    fs.map (fun q => if q.1 == p then (p, c) else q)
  else fs ++ [(p, c)]

/-- The file name `download_video` computes: the basename of the URL path,
percent-decoded, with spaces replaced by underscores. -/
def download_file_name (url : String) : String :=
  ⟨((pyUnquote (os_path_basename (urlPath url))).data.map
      (fun c => if c == ' ' then '_' else c))⟩

/-- Terminal outcome of one `download_video` call. -/
inductive DVOutcome where
  | cancelled
  | completed
  | requestFailed
  deriving DecidableEq

/-- `download_video` from `tiz-dl.py`.  `headOk` models whether the sizing
HEAD request raised (its Content-Length only feeds the progress bar);
`stream` models the GET: `none` is a request/HTTP error, and
`some (chunks, ok)` the chunk sequence written before the stream ended
(`ok`) or broke mid-transfer (`!ok`), in which case the partial prefix is
on disk.  When the destination exists, the overwrite `answer` is consulted
before the file is opened; any answer other than `y`/`Y` cancels and
leaves the filesystem untouched. -/
def download_video (fs : FileSys) (url destination answer : String)
    (headOk : Bool) (stream : Option (List (List Nat) × Bool)) :
    FileSys × DVOutcome :=
  if !headOk then (fs, .requestFailed)
  else
    let fp := os_path_join destination (download_file_name url)
    if (fsGet fs fp).isSome && !(strLower answer == "y") then (fs, .cancelled)
    else
      match stream with
      | none => (fs, .requestFailed)
      | some (chunks, ok) =>
        (fsSet fs fp chunks.flatten, if ok then .completed else .requestFailed)

/-! ## tiz-dl.py: the download dispatcher of `main` -/

/-- A retrieval method. -/
inductive Method where
  | delegated
  | direct
  deriving DecidableEq

/-- The suffixes `main` tests with `endswith` to pick the direct method. -/
def main_endswith_exts : List String := [".mp4", ".mkv", ".mov", ".webm", ".avi"]

/-- The ordered retrieval methods `main` runs for a resolved locator:
nothing when resolution produced no URL (main only reports the failure);
the delegated method alone for YouTube URLs; the direct method alone for
URLs ending in a recognized media suffix; otherwise the delegated method
first and, only if it fails (`delegatedOk = false`), the direct method
once. -/
def dispatch_plan (videoUrl : Option String) (delegatedOk : Bool) : List Method :=
  match videoUrl with
  | none => []
  | some u =>
    if is_youtube_url u then [.delegated]
    else if main_endswith_exts.any (fun e => strEnds u e) then [.direct]
    else if delegatedOk then [.delegated] else [.delegated, .direct]

/-! ## yt.py: the quality normalizer -/

/-- The fixed quality table of `normalize_quality`. -/
def quality_map : List (String × Nat) :=
  [("1080", 1080), ("1080p", 1080), ("2160", 2160), ("2160p", 2160),
   ("4k", 2160), ("uhd", 2160), ("fhd", 1080), ("hd", 1080)]

/-- ASCII whitespace, modelling Python `str.strip`'s default class on the
ASCII range. -/
def isSpaceChar (c : Char) : Bool :=
  c == ' ' || c == Char.ofNat 9 || c == Char.ofNat 10 || c == Char.ofNat 13 ||
    c == Char.ofNat 11 || c == Char.ofNat 12

/-- Python `s.strip()`. -/
def strStrip (s : String) : String :=
  ⟨(s.data.dropWhile isSpaceChar).reverse.dropWhile isSpaceChar |>.reverse⟩

/-- ASCII digit test (Python's digit class, restricted to the ASCII range
this program's inputs use). -/
def isDigitChar (c : Char) : Bool :=
  '0' ≤ c && c ≤ '9'

/-- Value of a digit string. -/
def digitsToNat (l : List Char) : Nat :=
  l.foldl (fun acc c => acc * 10 + (c.toNat - '0'.toNat)) 0

/-- The first maximal digit run of `s` (the head of `re.findall` over the
digit class), as a number, if any. -/
def firstNumber (s : String) : Option Nat :=
  match (s.data.dropWhile (fun c => !isDigitChar c)).takeWhile isDigitChar with
  | [] => none
  | run => some (digitsToNat run)

/-- `normalize_quality` from `yt.py`: the empty input is the default 1080;
a lower-cased, stripped input found in the fixed table maps through it;
otherwise the first embedded number is used when it is exactly 1080 or
2160; every other input falls back to 1080. -/
def normalize_quality (q : String) : Nat :=
  if q == "" then 1080
  else
    match (quality_map.find? (fun p => p.1 == strStrip (strLower q))).map (fun p => p.2) with
    | some h => h
    | none =>
      match firstNumber q with
      | some n => if n == 1080 || n == 2160 then n else 1080
      | none => 1080

/-! ## Supporting lemmas -/

theorem listStarts_nil_right : ∀ l : List Char, listStarts l [] = true := by
  intro l
  cases l <;> rfl

theorem listStarts_of_append (p t : List Char) : listStarts (p ++ t) p = true := by
  induction p with
  | nil => exact listStarts_nil_right t
  | cons a p ih => simp [listStarts, ih]

theorem listHas_of_starts : ∀ {l p : List Char}, listStarts l p = true →
    listHas l p = true := by
  intro l p h
  cases l with
  | nil =>
    cases p with
    | nil => rfl
    | cons b p => simp [listStarts] at h
  | cons c l => simp [listHas, h]

theorem listHas_cons {l p : List Char} (c : Char) (h : listHas l p = true) :
    listHas (c :: l) p = true := by
  simp [listHas, h]

theorem listHas_of_parts (p : List Char) :
    ∀ s t : List Char, listHas (s ++ p ++ t) p = true := by
  intro s
  induction s with
  | nil =>
    intro t
    exact listHas_of_starts (listStarts_of_append p t)
  | cons c s ih =>
    intro t
    exact listHas_cons c (ih t)

theorem listStarts_decomp : ∀ {l p : List Char}, listStarts l p = true →
    l = p ++ l.drop p.length := by
  intro l
  induction l with
  | nil =>
    intro p h
    cases p with
    | nil => rfl
    | cons b p => simp [listStarts] at h
  | cons a l ih =>
    intro p h
    cases p with
    | nil => rfl
    | cons b p =>
      simp only [listStarts, Bool.and_eq_true, beq_iff_eq] at h
      obtain ⟨rfl, h2⟩ := h
      have := ih h2
      simp only [List.cons_append, List.drop_succ_cons]
      exact congrArg (a :: ·) this

theorem findSplit_decomp (sep : List Char) :
    ∀ {l p q : List Char}, findSplit sep l = some (p, q) → l = p ++ sep ++ q := by
  intro l
  induction l with
  | nil =>
    intro p q h
    cases sep with
    | nil =>
      simp [findSplit, listStarts] at h
      obtain ⟨h1, h2⟩ := h
      subst h1
      subst h2
      rfl
    | cons c s => simp [findSplit, listStarts] at h
  | cons a l ih =>
    intro p q h
    simp only [findSplit] at h
    by_cases hs : listStarts (a :: l) sep = true
    · simp only [hs, if_true, Option.some.injEq, Prod.mk.injEq] at h
      obtain ⟨rfl, rfl⟩ := h
      simpa using listStarts_decomp hs
    · simp only [Bool.not_eq_true] at hs
      simp only [hs, Bool.false_eq_true, if_false] at h
      cases hfs : findSplit sep l with
      | none => rw [hfs] at h; exact absurd h (by simp)
      | some pq =>
        rw [hfs] at h
        obtain ⟨p', q'⟩ := pq
        simp only [Option.some.injEq, Prod.mk.injEq] at h
        obtain ⟨rfl, rfl⟩ := h
        rw [show l = p' ++ sep ++ q' from ih hfs]
        rfl

theorem suffix_trans {l₁ l₂ l₃ : List Char} (h₁ : l₁ <:+ l₂) (h₂ : l₂ <:+ l₃) :
    l₁ <:+ l₃ := by
  obtain ⟨s, rfl⟩ := h₁
  obtain ⟨t, rfl⟩ := h₂
  exact ⟨t ++ s, by simp⟩

theorem urlPath_suffix_segments (url : String) :
    ∃ s t : List Char, s ++ (urlPath url).data ++ t = url.data := by
  unfold urlPath
  cases hfs : findSplit "://".data url.data with
  | none =>
    refine ⟨[], url.data.dropWhile (fun c => !(c == '?') && !(c == '#')), ?_⟩
    simp [List.takeWhile_append_dropWhile]
  | some pq =>
    obtain ⟨p, q⟩ := pq
    have hdec := findSplit_decomp _ hfs
    have hq : q.dropWhile (fun c => !(c == '/')) <:+ url.data := by
      refine suffix_trans (List.dropWhile_suffix _) ⟨p ++ "://".data, ?_⟩
      simpa using hdec.symm
    obtain ⟨s, hs⟩ := hq
    refine ⟨s, (q.dropWhile (fun c => !(c == '/'))).dropWhile
        (fun c => !(c == '?') && !(c == '#')), ?_⟩
    simp only
    rw [List.append_assoc, List.takeWhile_append_dropWhile]
    exact hs

theorem strContains_of_path_end {url ext : String}
    (hend : ext.data <:+ (strLower (urlPath url)).data) :
    strContains (strLower url) ext = true := by
  obtain ⟨s, t, hst⟩ := urlPath_suffix_segments url
  obtain ⟨u, hu⟩ := hend
  have hlower : (strLower (urlPath url)).data = (urlPath url).data.map lowerChar := rfl
  rw [hlower] at hu
  have hsplit : ((s.map lowerChar) ++ u) ++ ext.data ++ (t.map lowerChar) =
      (strLower url).data := by
    show ((s.map lowerChar) ++ u) ++ ext.data ++ (t.map lowerChar) =
      url.data.map lowerChar
    rw [← congrArg (List.map lowerChar) hst]
    simp [hu, List.append_assoc]
  have : listHas (strLower url).data ext.data = true := by
    rw [← hsplit]
    exact listHas_of_parts _ _ _
  exact this

theorem browserFallback_all_fail (res : String → Option Nat) :
    ∀ l : List String, (∀ b ∈ l, ¬ res b = some 0) →
      browserFallback res l = (false, l) := by
  intro l
  induction l with
  | nil => intro _; rfl
  | cons b rest ih =>
    intro h
    have hb : (res b == some 0) = false := by
      simp [h b (List.mem_cons_self b rest)]
    simp [browserFallback, hb, ih (fun a ha => h a (List.mem_cons_of_mem b ha))]

theorem browserFallback_first_hit (res : String → Option Nat) :
    ∀ (pre : List String) (b : String) (post : List String),
      (∀ a ∈ pre, ¬ res a = some 0) → res b = some 0 →
      browserFallback res (pre ++ b :: post) = (true, pre ++ [b]) := by
  intro pre
  induction pre with
  | nil =>
    intro b post _ hb
    simp [browserFallback, hb]
  | cons a pre ih =>
    intro b post hpre hb
    have ha : (res a == some 0) = false := by
      simp [hpre a (List.mem_cons_self a pre)]
    have := ih b post (fun x hx => hpre x (List.mem_cons_of_mem a hx)) hb
    simp [browserFallback, ha, this]

theorem find_first_split {α : Type} (p : α → Bool) :
    ∀ (l : List α) (x : α), l.find? p = some x →
      p x = true ∧ ∃ l₁ l₂, l = l₁ ++ x :: l₂ ∧ ∀ y ∈ l₁, p y = false := by
  intro l
  induction l with
  | nil => intro x h; simp [List.find?] at h
  | cons a l ih =>
    intro x h
    by_cases hp : p a = true
    · rw [List.find?_cons_of_pos _ hp] at h
      obtain rfl : a = x := by simpa using h
      exact ⟨hp, [], l, rfl, by simp⟩
    · have hp' : p a = false := by simpa using hp
      rw [List.find?_cons_of_neg _ (by simp [hp'])] at h
      obtain ⟨hx, l₁, l₂, rfl, hrest⟩ := ih x h
      exact ⟨hx, a :: l₁, l₂, rfl, by
        intro y hy
        rcases List.mem_cons.mp hy with rfl | hy'
        · exact hp'
        · exact hrest y hy'⟩

theorem string_append_ne_empty (a b : String) (hb : ¬ b = "") : ¬ a ++ b = "" := by
  obtain ⟨la⟩ := a
  obtain ⟨lb⟩ := b
  intro h
  have : la ++ lb = [] := congrArg String.data h
  have : lb = [] := (List.append_eq_nil.mp this).2
  exact hb (congrArg String.mk this)

theorem os_path_join_ne_empty (d : String) : ¬ os_path_join d "cookies.txt" = "" := by
  unfold os_path_join
  split
  · decide
  · split
    · decide
    · split
      · exact string_append_ne_empty _ _ (by decide)
      · exact string_append_ne_empty _ _ (by decide)

/-! ## The claims -/

/-- Claim C10: `normalize_quality` in `yt.py` returns 1080 or 2160 and
nothing else, for every input string: the empty string is the 1080
default; a lower-cased, stripped input in the fixed table maps through
the table; with no table hit, a first embedded number of exactly 1080 or
2160 is returned; and every other input falls back to 1080. -/
theorem c10_quality_normalizer (q : String) :
    (normalize_quality q = 1080 ∨ normalize_quality q = 2160)
    ∧ (q = "" → normalize_quality q = 1080)
    ∧ (¬ q = "" → ∀ h : Nat,
        (quality_map.find? (fun p => p.1 == strStrip (strLower q))).map
            (fun p => p.2) = some h →
        normalize_quality q = h)
    ∧ (¬ q = "" →
        quality_map.find? (fun p => p.1 == strStrip (strLower q)) = none →
        ∀ n : Nat, firstNumber q = some n → (n = 1080 ∨ n = 2160) →
        normalize_quality q = n)
    ∧ (¬ q = "" →
        quality_map.find? (fun p => p.1 == strStrip (strLower q)) = none →
        (∀ n : Nat, firstNumber q = some n → ¬ n = 1080 ∧ ¬ n = 2160) →
        normalize_quality q = 1080) := by
  by_cases hq : q = ""
  · subst hq
    exact ⟨Or.inl rfl, fun _ => rfl, fun h => absurd rfl h, fun h => absurd rfl h,
      fun h => absurd rfl h⟩
  · have hq' : (q == "") = false := by simpa using hq
    refine ⟨?_, fun h => absurd h hq, ?_, ?_, ?_⟩
    · cases hfind : quality_map.find? (fun p => p.1 == strStrip (strLower q)) with
      | some a =>
        have hmem := List.mem_of_find?_eq_some hfind
        have hall : ∀ x ∈ quality_map, x.2 = 1080 ∨ x.2 = 2160 := by decide
        have hv : normalize_quality q = a.2 := by
          unfold normalize_quality
          rw [hq']
          simp [hfind]
        rw [hv]
        exact hall a hmem
      | none =>
        cases hnum : firstNumber q with
        | none =>
          have hv : normalize_quality q = 1080 := by
            unfold normalize_quality
            rw [hq']
            simp [hfind, hnum]
          rw [hv]
          exact Or.inl rfl
        | some n =>
          by_cases h1 : (n == 1080 || n == 2160) = true
          · have hv : normalize_quality q = n := by
              unfold normalize_quality
              rw [hq']
              simp [hfind, hnum, h1]
            rw [hv]
            rcases Bool.or_eq_true_iff.mp h1 with h | h
            · exact Or.inl (by simpa using h)
            · exact Or.inr (by simpa using h)
          · have h1' : (n == 1080 || n == 2160) = false := by simpa using h1
            have hv : normalize_quality q = 1080 := by
              unfold normalize_quality
              rw [hq']
              simp [hfind, hnum, h1']
            rw [hv]
            exact Or.inl rfl
    · intro _ h hmap
      unfold normalize_quality
      rw [hq']
      simp [hmap]
    · intro _ hfind n hnum hval
      unfold normalize_quality
      rw [hq']
      have : (n == 1080 || n == 2160) = true := by
        rcases hval with rfl | rfl <;> simp
      simp [hfind, hnum, this]
    · intro _ hfind hbad
      unfold normalize_quality
      rw [hq']
      cases hnum : firstNumber q with
      | none => simp [hfind, hnum]
      | some n =>
        have hb := hbad n hnum
        have h1 : (n == 1080 || n == 2160) = false := by
          simp [hb.1, hb.2]
        simp [hfind, hnum, h1]

/-- Witness for C10 at concrete inputs: a free-text quality request whose
first embedded number is 2160 normalizes to 2160. -/
theorem c10_quality_normalizer_witness :
    normalize_quality "I want 2160 per favore" = 2160 :=
  (c10_quality_normalizer "I want 2160 per favore").2.2.2.1 (by decide) rfl
    2160 rfl (Or.inr rfl)

/-- Claim C3: when the computed destination file of a direct download
already exists and the overwrite confirmation is answered with anything
whose lower-casing is not `y`, `download_video` cancels: the filesystem is
returned unchanged (so the pre-existing contents are byte-for-byte intact
and the file is never opened for writing) and the outcome is `cancelled`. -/
theorem c3_cancel_preserves_file (fs : FileSys) (url destination answer : String)
    (stream : Option (List (List Nat) × Bool)) (content : List Nat)
    (hex : fsGet fs (os_path_join destination (download_file_name url)) = some content)
    (hans : ¬ strLower answer = "y") :
    download_video fs url destination answer true stream = (fs, .cancelled)
    ∧ fsGet (download_video fs url destination answer true stream).1
        (os_path_join destination (download_file_name url)) = some content := by
  have h1 : download_video fs url destination answer true stream = (fs, .cancelled) := by
    unfold download_video
    have hsome : (fsGet fs (os_path_join destination (download_file_name url))).isSome
        = true := by rw [hex]; rfl
    have hans' : (strLower answer == "y") = false := by simpa using hans
    simp [hsome, hans']
  exact ⟨h1, by rw [h1]; exact hex⟩

/-- Witness for C3: a concrete existing file, answer `"no"`, a live stream
that would have overwritten it — the call cancels and the old bytes stay. -/
theorem c3_cancel_preserves_file_witness :
    download_video [("/dl/v.mp4", [1, 2, 3])] "https://h/v.mp4" "/dl" "no" true
        (some ([[9]], true)) = ([("/dl/v.mp4", [1, 2, 3])], .cancelled)
    ∧ fsGet (download_video [("/dl/v.mp4", [1, 2, 3])] "https://h/v.mp4" "/dl" "no"
        true (some ([[9]], true))).1
        (os_path_join "/dl" (download_file_name "https://h/v.mp4")) = some [1, 2, 3] :=
  c3_cancel_preserves_file [("/dl/v.mp4", [1, 2, 3])] "https://h/v.mp4" "/dl" "no"
    (some ([[9]], true)) [1, 2, 3] (by decide) (by decide)

/-- Claim C4, counterexample: for an ambiguous locator (not a YouTube URL,
no recognized media suffix) the dispatcher's complete attempt sequence
when everything fails is delegated-then-direct; the direct attempt comes
last, so a failed direct attempt is never retried as a delegated fetch —
the code has no symmetric cross-method fallback. -/
theorem c4_counterexample :
    dispatch_plan (some "https://example.com/stream") false
        = [Method.delegated, Method.direct]
    ∧ ¬ dispatch_plan (some "https://example.com/stream") false
        = [Method.direct, Method.delegated]
    ∧ (dispatch_plan (some "https://example.com/stream") false).getLast?
        = some Method.direct := by
  refine ⟨by decide, by decide, by decide⟩

/-- Claim C4, amended: the only cross-method fallback is
delegated-then-direct for an ambiguous locator; YouTube locators get a
single delegated attempt, suffix-matching locators a single direct
attempt, the fallback runs at most once and never cycles back (no method
repeats in any plan). -/
theorem c4_single_cross_fallback :
    (∀ u : String, is_youtube_url u = false →
        (main_endswith_exts.any fun e => strEnds u e) = false →
        dispatch_plan (some u) false = [Method.delegated, Method.direct]
        ∧ dispatch_plan (some u) true = [Method.delegated])
    ∧ (∀ (u : String) (b : Bool), is_youtube_url u = true →
        dispatch_plan (some u) b = [Method.delegated])
    ∧ (∀ (u : String) (b : Bool), is_youtube_url u = false →
        (main_endswith_exts.any fun e => strEnds u e) = true →
        dispatch_plan (some u) b = [Method.direct])
    ∧ (∀ (v : Option String) (b : Bool), (dispatch_plan v b).Nodup) := by
  refine ⟨?_, ?_, ?_, ?_⟩
  · intro u h1 h2
    constructor <;> simp [dispatch_plan, h1, h2]
  · intro u b h1
    simp [dispatch_plan, h1]
  · intro u b h1 h2
    simp [dispatch_plan, h1, h2]
  · intro v b
    cases v with
    | none => exact List.nodup_nil
    | some u =>
      show (if is_youtube_url u then [Method.delegated]
        else if main_endswith_exts.any (fun e => strEnds u e) then [Method.direct]
        else if b then [Method.delegated]
        else [Method.delegated, Method.direct]).Nodup
      by_cases h1 : is_youtube_url u = true
      · rw [if_pos h1]; decide
      · rw [if_neg h1]
        by_cases h2 : (main_endswith_exts.any fun e => strEnds u e) = true
        · rw [if_pos h2]; decide
        · rw [if_neg h2]
          cases b
          · rw [if_neg (by simp)]; decide
          · rw [if_pos rfl]; decide

/-- Witness for C4's amended claim at a concrete ambiguous locator. -/
theorem c4_single_cross_fallback_witness :
    dispatch_plan (some "https://example.com/media") false
        = [Method.delegated, Method.direct]
    ∧ dispatch_plan (some "https://example.com/media") true = [Method.delegated] :=
  c4_single_cross_fallback.1 "https://example.com/media" (by decide) (by decide)

/-- Claim C2: on a non-zero delegated-tool exit with a cookie file in use
and the bot-verification phrase in stderr, exactly one browser-cookie
fallback cycle runs over the fixed order chrome, firefox, edge, safari,
brave, opera, substituting live browser cookies for the file, stopping at
the first exit 0; exhausting all identities reports failure; and with no
cookie file, or without the phrase, no fallback attempt is made at all. -/
theorem c2_browser_cookie_fallback (videoUrl stderr : String) (c : Option String)
    (e : Nat) (res : String → Option Nat) (he : ¬ e = 0) :
    (∀ p : String, c = some p → strContains stderr botPhrase = true →
      (∀ (pre : List String) (b : String) (post : List String),
          browsers = pre ++ b :: post → (∀ a ∈ pre, ¬ res a = some 0) →
          res b = some 0 →
          download_youtube_dispatch videoUrl c e stderr res =
            (true, .fileCookies c (normalize_youtube_url videoUrl) ::
              (pre ++ [b]).map
                (fun br => .browserCookies br (normalize_youtube_url videoUrl))))
      ∧ ((∀ b ∈ browsers, ¬ res b = some 0) →
          download_youtube_dispatch videoUrl c e stderr res =
            (false, .fileCookies c (normalize_youtube_url videoUrl) ::
              browsers.map
                (fun br => .browserCookies br (normalize_youtube_url videoUrl)))))
    ∧ ((c = none ∨ strContains stderr botPhrase = false) →
        download_youtube_dispatch videoUrl c e stderr res =
          (false, [.fileCookies c (normalize_youtube_url videoUrl)])) := by
  have he' : (e == 0) = false := by simpa using he
  constructor
  · intro p hp hphrase
    have hcond : (c.isSome && strContains stderr botPhrase) = true := by
      simp [hp, hphrase]
    constructor
    · intro pre b post hsplit hpre hb
      unfold download_youtube_dispatch
      rw [he']
      simp only [Bool.false_eq_true, if_false, hcond, if_true]
      rw [hsplit, browserFallback_first_hit res pre b post hpre hb]
    · intro hall
      unfold download_youtube_dispatch
      rw [he']
      simp only [Bool.false_eq_true, if_false, hcond, if_true]
      rw [browserFallback_all_fail res browsers hall]
  · intro hc
    unfold download_youtube_dispatch
    rw [he']
    have hcond : (c.isSome && strContains stderr botPhrase) = false := by
      rcases hc with rfl | hph
      · rfl
      · simp [hph]
    simp only [Bool.false_eq_true, if_false, hcond]

/-- Witness for C2: a concrete bot-verification failure with a cookie file;
chrome and firefox fail, edge succeeds; the recorded attempts are the
primary file-cookie attempt followed by exactly chrome, firefox, edge,
all against the once-normalized URL. -/
theorem c2_browser_cookie_fallback_witness :
    download_youtube_dispatch "https://youtu.be/ABC" (some "cookies.txt") 1
        botPhrase (fun b => if b == "edge" then some 0 else some 1) =
      (true, .fileCookies (some "cookies.txt") "https://www.youtube.com/watch?v=ABC" ::
        (["chrome", "firefox"] ++ ["edge"]).map
          (fun br => .browserCookies br "https://www.youtube.com/watch?v=ABC")) :=
  ((c2_browser_cookie_fallback "https://youtu.be/ABC" botPhrase (some "cookies.txt") 1
      (fun b => if b == "edge" then some 0 else some 1) (by decide)).1
    "cookies.txt" rfl (by decide)).1
    ["chrome", "firefox"] "edge" ["safari", "brave", "opera"] rfl (by decide) (by decide)

/-- Claim C8: the cookie locator checks its candidate locations in strict
order — explicit override (when provided), `cookies.txt` beside the
script, `cookies.txt` in the working directory, the fixed
user-configuration path — returns the first that exists, `none` when none
exists; and absence is no error: the delegated download's primary attempt
still runs, with no cookie file attached. -/
theorem c8_cookie_locator (pathExists : String → Bool) (ov : Option String)
    (sd cw hm : String) :
    (find_cookies_path pathExists ov sd cw hm = none ↔
      ∀ p ∈ cookie_locations ov sd cw hm, pathExists p = false)
    ∧ (∀ p : String, find_cookies_path pathExists ov sd cw hm = some p →
        pathExists p = true ∧
        ∃ l₁ l₂, cookie_locations ov sd cw hm = l₁ ++ p :: l₂ ∧
          ∀ q ∈ l₁, pathExists q = false)
    ∧ (∀ o : String, ¬ o = "" → ov = some o →
        cookie_locations ov sd cw hm =
          [o, os_path_join sd "cookies.txt", os_path_join cw "cookies.txt",
           hm ++ "/.config/yt-dlp/cookies.txt"])
    ∧ (∀ (videoUrl stderr : String) (e : Nat) (res : String → Option Nat),
        (download_youtube_dispatch videoUrl none e stderr res).2.head? =
          some (.fileCookies none (normalize_youtube_url videoUrl))) := by
  refine ⟨?_, ?_, ?_, ?_⟩
  · constructor
    · intro h p hp
      have := List.find?_eq_none.mp h p hp
      simpa using this
    · intro h
      exact List.find?_eq_none.mpr (fun p hp => by simp [h p hp])
  · intro p h
    exact find_first_split pathExists _ p h
  · intro o ho hov
    subst hov
    have hb0 : (o == "") = false := by simpa using ho
    have hb1 : (os_path_join sd "cookies.txt" == "") = false := by
      simpa using os_path_join_ne_empty sd
    have hb2 : (os_path_join cw "cookies.txt" == "") = false := by
      simpa using os_path_join_ne_empty cw
    have hb3 : (hm ++ "/.config/yt-dlp/cookies.txt" == "") = false := by
      simpa using string_append_ne_empty hm "/.config/yt-dlp/cookies.txt" (by decide)
    simp [cookie_locations, List.filter, hb0, hb1, hb2, hb3]
  · intro videoUrl stderr e res
    unfold download_youtube_dispatch
    by_cases he : (e == 0) = true
    · rw [he]
      rfl
    · have he' : (e == 0) = false := by simpa using he
      rw [he']
      simp

/-- Witness for C8: with an explicit override that does not exist and a
`cookies.txt` present in the working directory, the working-directory copy
is located, and the candidate order is exactly as claimed. -/
theorem c8_cookie_locator_witness :
    cookie_locations (some "/o/c.txt") "/sd" "/cwd" "/h" =
      ["/o/c.txt", "/sd/cookies.txt", "/cwd/cookies.txt",
       "/h/.config/yt-dlp/cookies.txt"]
    ∧ find_cookies_path (fun p => p == "/cwd/cookies.txt") (some "/o/c.txt")
        "/sd" "/cwd" "/h" = some "/cwd/cookies.txt" :=
  ⟨(c8_cookie_locator (fun p => p == "/cwd/cookies.txt") (some "/o/c.txt")
      "/sd" "/cwd" "/h").2.2.1 "/o/c.txt" (by decide) rfl, by decide⟩

/-- Claim C5: any URL whose (lower-cased) path ends in one of the seven
configured media suffixes resolves to itself — `extract_video_url` returns
the URL before any fetch, so the result holds for every behaviour of the
network and library oracles, i.e. no I/O is performed. -/
theorem c5_direct_media_short_circuit (fetch : String → Option HttpResp)
    (fetchText : String → Option String) (jsonParse : String → Option JVal)
    (url : String) (fr : Bool) (ext : String)
    (hmem : ext ∈ video_extensions)
    (hend : ext.data <:+ (strLower (urlPath url)).data) :
    extract_video_url fetch fetchText jsonParse url fr = some url := by
  have hc : strContains (strLower url) ext = true := strContains_of_path_end hend
  have hany : (video_extensions.any fun e => strContains (strLower url) e) = true :=
    List.any_eq_true.mpr ⟨ext, hmem, hc⟩
  unfold extract_video_url
  by_cases hyt : is_youtube_url url = true
  · rw [if_pos hyt]
  · rw [if_neg hyt, if_pos hany]

/-- Witness for C5: a concrete upper-cased direct media URL, resolved
identically under two different fetch oracles (none is consulted). -/
theorem c5_direct_media_short_circuit_witness :
    extract_video_url (fun _ => none) (fun _ => none) (fun _ => none)
        "https://cdn.example/video.MP4" true = some "https://cdn.example/video.MP4"
    ∧ extract_video_url
        (fun _ => some ⟨"", [], "https://other.example", true⟩) (fun _ => none)
        (fun _ => none) "https://cdn.example/video.MP4" true
        = some "https://cdn.example/video.MP4" :=
  ⟨c5_direct_media_short_circuit (fun _ => none) (fun _ => none) (fun _ => none)
      "https://cdn.example/video.MP4" true ".mp4" (by decide)
      ⟨"/video".data, by decide⟩,
   c5_direct_media_short_circuit (fun _ => some ⟨"", [], "https://other.example", true⟩)
      (fun _ => none) (fun _ => none) "https://cdn.example/video.MP4" true ".mp4"
      (by decide) ⟨"/video".data, by decide⟩⟩

/-- Claim C6, counterexample: with redirect-following disabled (the
program's `--no-redirects` mode) a fetch that was redirected to a YouTube
final URL does not short-circuit: page-content extraction runs and returns
the page's video element source instead of the final URL. -/
theorem c6_redirect_counterexample :
    extract_video_url
        (fun _ => some ⟨"", [Node.elem "video" [("src", "https://cdn.example/a.mp4")] []],
          "https://www.youtube.com/watch?v=Zq", true⟩)
        (fun _ => none) (fun _ => none) "https://example.com/r" false
      = some "https://cdn.example/a.mp4"
    ∧ ¬ (some "https://cdn.example/a.mp4" : Option String)
        = some "https://www.youtube.com/watch?v=Zq" := by
  exact ⟨rfl, by decide⟩

/-- Claim C6, amended: with redirect-following enabled (the default), a
fetched response that records a redirect history and whose final URL is a
YouTube URL makes `extract_video_url` return that final URL immediately —
for every page body and parse, i.e. before any content strategy runs. -/
theorem c6_redirect_short_circuit (fetch : String → Option HttpResp)
    (fetchText : String → Option String) (jsonParse : String → Option JVal)
    (url : String) (resp : HttpResp)
    (hyt : is_youtube_url url = false)
    (hext : (video_extensions.any fun e => strContains (strLower url) e) = false)
    (hf : fetch url = some resp)
    (hred : resp.redirected = true)
    (hfin : is_youtube_url resp.url = true) :
    extract_video_url fetch fetchText jsonParse url true = some resp.url := by
  have hne : ¬ resp.url = url := by
    intro h
    rw [h, hyt] at hfin
    exact absurd hfin (by simp)
  have hbe : (resp.url == url) = false := by simpa using hne
  unfold extract_video_url
  rw [if_neg (by simp [hyt]), if_neg (by simp [hext]), hf]
  simp [hred, hbe, hfin]

/-- Witness for C6's amended claim: a concrete redirected fetch whose page
body holds a video element, resolved to the YouTube final URL anyway. -/
theorem c6_redirect_short_circuit_witness :
    extract_video_url
        (fun _ => some ⟨"", [Node.elem "video" [("src", "https://cdn.example/a.mp4")] []],
          "https://www.youtube.com/watch?v=Zq", true⟩)
        (fun _ => none) (fun _ => none) "https://example.com/r" true
      = some "https://www.youtube.com/watch?v=Zq" :=
  c6_redirect_short_circuit
    (fun _ => some ⟨"", [Node.elem "video" [("src", "https://cdn.example/a.mp4")] []],
      "https://www.youtube.com/watch?v=Zq", true⟩)
    (fun _ => none) (fun _ => none) "https://example.com/r"
    ⟨"", [Node.elem "video" [("src", "https://cdn.example/a.mp4")] []],
      "https://www.youtube.com/watch?v=Zq", true⟩
    (by decide) (by decide) rfl rfl (by decide)

/-- Claim C9, counterexample: resolution does not return the no-locator
outcome for every page body — a body containing a direct media URL makes
`extract_video_url` return that URL, not `none`. -/
theorem c9_counterexample :
    extract_video_url
        (fun _ => some ⟨"https://cdn.example/clip.mp4", [],
          "https://example.com/page", false⟩)
        (fun _ => none) (fun _ => none) "https://example.com/page" true
      = some "https://cdn.example/clip.mp4"
    ∧ ¬ (some "https://cdn.example/clip.mp4" : Option String) = none := by
  exact ⟨rfl, by decide⟩

/-- Claim C9, amended: for an empty page body (with an opaque source URL:
not YouTube-shaped, mentioning no media suffix, not on the partner
domain) resolution returns `none`, for every redirect flag, recorded
redirect state, non-YouTube final URL and oracle behaviour; a failed
fetch likewise yields `none` (the extractor's catch-all handler); and with
no URL the dispatcher attempts no download method (main only reports that
no video URL was found).  Page bodies matched by a strategy return a
locator instead; in all cases the embedded extractor is a total function,
reflecting the catch-all exception handler in the source. -/
theorem c9_empty_body_no_locator (fetchText : String → Option String)
    (jsonParse : String → Option JVal) (url furl : String) (red b : Bool)
    (hyt : is_youtube_url url = false)
    (hext : (video_extensions.any fun e => strContains (strLower url) e) = false)
    (htiz : strContains url "tiz-cycling.tv" = false)
    (hfyt : is_youtube_url furl = false) :
    extract_video_url (fun _ => some ⟨"", [], furl, red⟩) fetchText jsonParse url b
      = none
    ∧ extract_video_url (fun _ => none) fetchText jsonParse url b = none
    ∧ dispatch_plan none true = [] ∧ dispatch_plan none false = [] := by
  refine ⟨?_, ?_, rfl, rfl⟩
  · unfold extract_video_url
    rw [if_neg (by simp [hyt]), if_neg (by simp [hext])]
    simp [hfyt, htiz]
    rfl
  · unfold extract_video_url
    rw [if_neg (by simp [hyt]), if_neg (by simp [hext])]

/-- Witness for C9's amended claim at a concrete opaque URL and empty page. -/
theorem c9_empty_body_no_locator_witness :
    extract_video_url
        (fun _ => some ⟨"", [], "https://example.com/final", true⟩)
        (fun _ => none) (fun _ => none) "https://example.com/page" true = none
    ∧ extract_video_url (fun _ => none) (fun _ => none) (fun _ => none)
        "https://example.com/page" true = none :=
  ⟨(c9_empty_body_no_locator (fun _ => none) (fun _ => none) "https://example.com/page"
      "https://example.com/final" true true (by decide) (by decide) (by decide)
      (by decide)).1,
   (c9_empty_body_no_locator (fun _ => none) (fun _ => none) "https://example.com/page"
      "https://example.com/final" true true (by decide) (by decide) (by decide)
      (by decide)).2.1⟩

/-- Claim C1, counterexample: a fetched page whose only content is an
embed-style YouTube iframe resolves to the raw embed URL, not to the
canonical watch form — the pipeline performs no normalization at exit. -/
theorem c1_counterexample :
    extract_video_url
        (fun _ => some ⟨"",
          [Node.elem "iframe" [("src", "https://www.youtube.com/embed/ABC123?x=1")] []],
          "https://example.com/page", false⟩)
        (fun _ => none) (fun _ => none) "https://example.com/page" true
      = some "https://www.youtube.com/embed/ABC123?x=1"
    ∧ ¬ ("https://www.youtube.com/embed/ABC123?x=1" : String)
        = "https://www.youtube.com/watch?v=ABC123" := by
  exact ⟨rfl, by decide⟩

/-- Claim C1, amended: the pipeline returns a YouTube-mentioning iframe's
`src` verbatim; canonical `watch?v=` normalization instead happens
downstream, once, at the start of the delegated YouTube download: every
attempt recorded by the dispatcher (primary and browser fallbacks alike)
uses the once-normalized URL, and the normalizer maps the embed, short and
watch-with-query shapes to the single canonical form. -/
theorem c1_normalize_downstream_once (fetchText : String → Option String)
    (jsonParse : String → Option JVal) (url src text furl : String) (b : Bool)
    (hyt : is_youtube_url url = false)
    (hext : (video_extensions.any fun e => strContains (strLower url) e) = false)
    (htiz : strContains url "tiz-cycling.tv" = false)
    (hsrc : strContains src "youtube.com" = true) :
    extract_video_url
        (fun _ => some ⟨text, [Node.elem "iframe" [("src", src)] []], furl, false⟩)
        fetchText jsonParse url b = some src
    ∧ (∀ (c : Option String) (e : Nat) (stderr : String) (res : String → Option Nat),
        ∀ a ∈ (download_youtube_dispatch src c e stderr res).2,
          ytAttemptUrl a = normalize_youtube_url src)
    ∧ normalize_youtube_url "https://www.youtube.com/embed/ABC123?x=1"
        = "https://www.youtube.com/watch?v=ABC123"
    ∧ normalize_youtube_url "https://youtu.be/ABC123"
        = "https://www.youtube.com/watch?v=ABC123"
    ∧ normalize_youtube_url "https://www.youtube.com/watch?v=ABC123&t=5s"
        = "https://www.youtube.com/watch?v=ABC123" := by
  refine ⟨?_, ?_, rfl, rfl, rfl⟩
  · have h1 : extract_video_url
        (fun _ => some ⟨text, [Node.elem "iframe" [("src", src)] []], furl, false⟩)
        fetchText jsonParse url b
        = genericStrategies jsonParse
            ⟨text, [Node.elem "iframe" [("src", src)] []], furl, false⟩ := by
      unfold extract_video_url
      rw [if_neg (by simp [hyt]), if_neg (by simp [hext])]
      simp [htiz]
    rw [h1]
    show genericAfterWrapper jsonParse
        ⟨text, [Node.elem "iframe" [("src", src)] []], furl, false⟩ = some src
    have hfind : findFirstD [Node.elem "iframe" [("src", src)] []]
        (fun n => nodeTag n == "iframe" &&
          (match attrOf n "src" with
           | some s => strContains s "youtube.com"
           | none => false))
        = some (Node.elem "iframe" [("src", src)] []) := by
      simp [findFirstD, findAllD, forestDescend, nodeDescend, List.filter,
        nodeTag, attrOf, nodeAttrs, hsrc]
    unfold genericAfterWrapper
    rw [hfind]
    rfl
  · intro c e stderr res a ha
    unfold download_youtube_dispatch at ha
    by_cases he : (e == 0) = true
    · rw [he] at ha
      simp at ha
      simp [ha, ytAttemptUrl]
    · have he' : (e == 0) = false := by simpa using he
      rw [he'] at ha
      by_cases hg : (c.isSome && strContains stderr botPhrase) = true
      · rw [hg] at ha
        simp at ha
        rcases ha with rfl | ⟨br, _, rfl⟩ <;> simp [ytAttemptUrl]
      · have hg' : (c.isSome && strContains stderr botPhrase) = false := by
          simpa using hg
        rw [hg'] at ha
        simp at ha
        simp [ha, ytAttemptUrl]

/-- Witness for C1's amended claim: the concrete embed page resolves to the
raw embed URL, which the downstream normalizer then canonicalizes. -/
theorem c1_normalize_downstream_once_witness :
    extract_video_url
        (fun _ => some ⟨"",
          [Node.elem "iframe" [("src", "https://www.youtube.com/embed/Q1w2e3?list=9")] []],
          "https://example.com/page", false⟩)
        (fun _ => none) (fun _ => none) "https://example.com/page" true
      = some "https://www.youtube.com/embed/Q1w2e3?list=9"
    ∧ normalize_youtube_url "https://www.youtube.com/embed/ABC123?x=1"
        = "https://www.youtube.com/watch?v=ABC123" :=
  ⟨(c1_normalize_downstream_once (fun _ => none) (fun _ => none)
      "https://example.com/page" "https://www.youtube.com/embed/Q1w2e3?list=9" ""
      "https://example.com/page" true (by decide) (by decide) (by decide)
      (by decide)).1,
   (c1_normalize_downstream_once (fun _ => none) (fun _ => none)
      "https://example.com/page" "https://www.youtube.com/embed/Q1w2e3?list=9" ""
      "https://example.com/page" true (by decide) (by decide) (by decide)
      (by decide)).2.2.1⟩

/-- Claim C7, counterexample: on a partner-domain page, a proxy frame whose
`v` value is not a URL is returned literally by the site extractor — it is
not rewritten into a video-service (YouTube watch) locator. -/
theorem c7_counterexample :
    extract_video_url
        (fun _ => some ⟨"",
          [Node.elem "iframe" [("src", "https://tiz-cycling.tv/video.php?v=abc")] []],
          "https://tiz-cycling.tv/race", false⟩)
        (fun _ => none) (fun _ => none) "https://tiz-cycling.tv/race" true
      = some "abc"
    ∧ ¬ ("abc" : String) = "https://www.youtube.com/watch?v=abc" := by
  exact ⟨rfl, by decide⟩

/-- Claim C7, amended: a proxy frame's `v` query parameter is
percent-decoded (by the query parser and once more by the explicit
decode); in the generic wrapper-frame strategy, a decoded value starting
with `http` is returned as the (direct-media) locator and any other value
is rewritten into a YouTube watch locator, while the partner-domain
extractor returns the decoded value literally in both cases. -/
theorem c7_proxy_frame_v_parameter (fetchText : String → Option String)
    (jsonParse : String → Option JVal) :
    (∀ (url src w text furl : String) (b : Bool),
      is_youtube_url url = false →
      (video_extensions.any fun e => strContains (strLower url) e) = false →
      strContains url "tiz-cycling.tv" = false →
      getV (urlQuery src) = some w →
      extract_video_url
          (fun _ => some ⟨text,
            [Node.elem "div" [("class", "video-wrapper")]
              [Node.elem "iframe" [("src", src)] []]], furl, false⟩)
          fetchText jsonParse url b
        = some (if strStarts (pyUnquote w) "http" then pyUnquote w
            else "https://www.youtube.com/watch?v=" ++ pyUnquote w))
    ∧ (∀ (url src w furl : String) (b : Bool),
      is_youtube_url url = false →
      (video_extensions.any fun e => strContains (strLower url) e) = false →
      strContains url "tiz-cycling.tv" = true →
      strContains src "video.php" = true →
      strContains src "youtube.com" = false →
      strContains src "youtu.be" = false →
      getV (urlQuery (pyUrljoin url src)) = some w →
      extract_video_url
          (fun _ => some ⟨"", [Node.elem "iframe" [("src", src)] []], furl, false⟩)
          fetchText jsonParse url b
        = some (pyUnquote w)) := by
  constructor
  · intro url src w text furl b hyt hext htiz hv
    have h1 : extract_video_url
        (fun _ => some ⟨text,
          [Node.elem "div" [("class", "video-wrapper")]
            [Node.elem "iframe" [("src", src)] []]], furl, false⟩)
        fetchText jsonParse url b
        = genericStrategies jsonParse
            ⟨text, [Node.elem "div" [("class", "video-wrapper")]
              [Node.elem "iframe" [("src", src)] []]], furl, false⟩ := by
      unfold extract_video_url
      rw [if_neg (by simp [hyt]), if_neg (by simp [hext])]
      simp [htiz]
    rw [h1]
    show (match getV (urlQuery src) with
      | some v0 =>
        if strStarts (pyUnquote v0) "http" then some (pyUnquote v0)
        else some ("https://www.youtube.com/watch?v=" ++ pyUnquote v0)
      | none => some src)
      = some (if strStarts (pyUnquote w) "http" then pyUnquote w
          else "https://www.youtube.com/watch?v=" ++ pyUnquote w)
    rw [hv]
    by_cases hh : strStarts (pyUnquote w) "http" = true
    · simp [hh]
    · have hh' : strStarts (pyUnquote w) "http" = false := by simpa using hh
      simp [hh']
  · intro url src w furl b hyt hext htiz hvp hy1 hy2 hv
    unfold extract_video_url
    rw [if_neg (by simp [hyt]), if_neg (by simp [hext])]
    have hyfind : findFirstD [Node.elem "iframe" [("src", src)] []]
        (fun n => nodeTag n == "iframe" &&
          (match attrOf n "src" with
           | some s => strContains s "youtube.com" || strContains s "youtu.be"
           | none => false)) = none := by
      simp [findFirstD, findAllD, forestDescend, nodeDescend, List.filter,
        nodeTag, attrOf, nodeAttrs, hy1, hy2]
    have hloop : tizIframeLoop fetchText url [Node.elem "iframe" [("src", src)] []]
        = some (pyUnquote w) := by
      unfold tizIframeLoop
      rw [show attrOf (Node.elem "iframe" [("src", src)] []) "src" = some src from rfl]
      simp only [hvp, if_true, hv]
    have htz : extract_tiz_url fetchText url ""
        [Node.elem "iframe" [("src", src)] []] = some (pyUnquote w) := by
      unfold extract_tiz_url
      rw [show mp4PatternsFirst "" = none from rfl, hyfind,
        show findAllD [Node.elem "iframe" [("src", src)] []]
          (fun n => nodeTag n == "iframe")
          = [Node.elem "iframe" [("src", src)] []] from rfl, hloop]
    simp [htz, htiz]

/-- Witness for C7's amended claim: the percent-encoded proxy frame of the
specification's example decodes to the direct media URL in the generic
strategy, and a non-URL `v` is rewritten to a watch locator there, while
the partner-domain extractor returns the decoded value as-is. -/
theorem c7_proxy_frame_v_parameter_witness :
    extract_video_url
        (fun _ => some ⟨"",
          [Node.elem "div" [("class", "video-wrapper")]
            [Node.elem "iframe"
              [("src",
                "https://proxy.example/video.php?v=https%3A%2F%2Fcdn.example%2Fclip.mp4")]
              []]], "https://example.com/page", false⟩)
        (fun _ => none) (fun _ => none) "https://example.com/page" true
      = some "https://cdn.example/clip.mp4"
    ∧ extract_video_url
        (fun _ => some ⟨"",
          [Node.elem "div" [("class", "video-wrapper")]
            [Node.elem "iframe"
              [("src", "https://proxy.example/video.php?v=dQw4w9WgXcQ")] []]],
          "https://example.com/page", false⟩)
        (fun _ => none) (fun _ => none) "https://example.com/page" true
      = some "https://www.youtube.com/watch?v=dQw4w9WgXcQ"
    ∧ extract_video_url
        (fun _ => some ⟨"",
          [Node.elem "iframe"
            [("src",
              "https://tiz-cycling.tv/video.php?v=https%3A%2F%2Fcdn.example%2Fclip.mp4")]
            []], "https://tiz-cycling.tv/race", false⟩)
        (fun _ => none) (fun _ => none) "https://tiz-cycling.tv/race" true
      = some "https://cdn.example/clip.mp4" := by
  refine ⟨?_, ?_, ?_⟩
  · exact (c7_proxy_frame_v_parameter (fun _ => none) (fun _ => none)).1
      "https://example.com/page"
      "https://proxy.example/video.php?v=https%3A%2F%2Fcdn.example%2Fclip.mp4"
      "https://cdn.example/clip.mp4" "" "https://example.com/page" true
      (by decide) (by decide) (by decide) (by decide)
  · exact (c7_proxy_frame_v_parameter (fun _ => none) (fun _ => none)).1
      "https://example.com/page" "https://proxy.example/video.php?v=dQw4w9WgXcQ"
      "dQw4w9WgXcQ" "" "https://example.com/page" true
      (by decide) (by decide) (by decide) (by decide)
  · exact (c7_proxy_frame_v_parameter (fun _ => none) (fun _ => none)).2
      "https://tiz-cycling.tv/race"
      "https://tiz-cycling.tv/video.php?v=https%3A%2F%2Fcdn.example%2Fclip.mp4"
      "https://cdn.example/clip.mp4" "https://tiz-cycling.tv/race" true
      (by decide) (by decide) (by decide) (by decide) (by decide) (by decide)
      (by decide)

end TizDl

